import Mathlib

/-!
Shallow embedding of the MQTT client protocol engine
(`src/mqtt.c`, `src/mqtt_packet.c`) and proofs about it.

Bytes are modelled as `Nat`; a value read from a `uint8_t` array cell is
masked with `% 256` (the C type guarantees the same range).  A C array
plus an element count is embedded as the `List` of its elements.  C `int`
results are `Int`.  Machine arithmetic uses explicit `% 2 ^ w` at the
points where the C types can overflow.
-/

namespace Mqtt

/-- Mask to the `uint8_t` range, as storage into a byte array does in C. -/
def byte (n : Nat) : Nat := n % 256

/-- `data[i]` on a byte array: in-range reads are masked to a byte.
All uses are bounds-checked by the surrounding code exactly where the C is. -/
def byteAt (data : List Nat) (i : Nat) : Nat := byte (data.getD i 0)

/-- Maximum MQTT packet size (`MQTT_MAX_PACKET_SIZE`, 128 KiB). -/
def MQTT_MAX_PACKET_SIZE : Nat := 128 * 1024

/-! ## Wire primitives (`mqtt_packet.c`) -/

/-- `write_variable_length` (mqtt_packet.c:27): emit the MQTT
variable-length integer, 7 value bits per byte, low-order group first,
continuation bit on every byte but the last. -/
def write_variable_length (value : Nat) : List Nat :=
  let encoded_byte := value % 128
  let value' := value / 128
  if value' > 0 then
    (encoded_byte ||| 0x80) :: write_variable_length value'
  else
    [encoded_byte]
termination_by value
decreasing_by
  exact Nat.div_lt_self (by omega) (by omega)

/-- `read_variable_length` (mqtt_packet.c:51), with `len` bytes already
consumed, accumulated `value` and current `multiplier`.  Returns the
decoded value and the number of bytes read, or `none` where the C
returns 0 (a fifth byte would be needed) or would read past the buffer. -/
def read_variable_length_aux : List Nat → Nat → Nat → Nat → Option (Nat × Nat)
  | _, 4, _, _ => none
  | [], _, _, _ => none
  | b :: rest, len, value, multiplier =>
    let encoded_byte := byte b
    let value' := value + (encoded_byte &&& 0x7F) * multiplier
    if encoded_byte &&& 0x80 ≠ 0 then
      read_variable_length_aux rest (len + 1) value' (multiplier * 128)
    else
      some (value', len + 1)

/-- `read_variable_length` on a buffer. -/
def read_variable_length (buf : List Nat) : Option (Nat × Nat) :=
  read_variable_length_aux buf 0 0 1

/-- `write_string` (mqtt_packet.c:79): two big-endian length bytes then
the string bytes.  The C returns 0 only for a NULL pointer, which the
embedding represents with `Option` at the call sites instead. -/
def write_string (str : List Nat) : List Nat :=
  let str_len := str.length
  ((str_len >>> 8) &&& 0xFF) :: (str_len &&& 0xFF) :: str

/-- `read_string` (mqtt_packet.c:104): reads a two-byte big-endian length
then that many bytes, returning the copied string and the total bytes
consumed.  Returns `none` where the C returns 0 (`max_len < 3` or the
output buffer cannot hold the string plus NUL); the C does not check the
input buffer length and would read out of bounds there, so the embedding
also returns `none` when fewer than `str_len + 2` input bytes exist. -/
def read_string (buf : List Nat) (max_len : Nat) : Option (List Nat × Nat) :=
  if max_len < 3 then none
  else if buf.length < 2 then none
  else
    let str_len := (byteAt buf 0 <<< 8) ||| byteAt buf 1
    if str_len + 1 > max_len then none
    else if buf.length < str_len + 2 then none
    else some (((buf.drop 2).take str_len).map byte, str_len + 2)

/-! ## Packet serializers (`mqtt_packet.c`) -/

/-- Configuration (`mqtt_config_t`): C strings are embedded as their byte
contents (no interior NUL, so `strlen` is the list length); NULL pointers
become `none`. -/
structure Config where
  client_id : List Nat
  username : Option (List Nat)
  password : Option (List Nat)
  keep_alive : Nat       -- uint16
  clean_session : Bool
deriving Repr, DecidableEq

/-- `create_connect_packet` (mqtt_packet.c:131).  The serializer reserves
four length bytes and memmoves the variable part over the gap, so the
emitted packet is the fixed-header byte, the variable-length field, then
the variable header and payload. -/
def create_connect_packet (config : Config) (buf_len : Nat) : Option (List Nat) :=
  if buf_len < 10 then none
  else if config.client_id.length = 0 then none
  else
    let connect_flags :=
      (if config.clean_session then 0x02 else 0) |||
      (if config.username.isSome then 0x80 else 0) |||
      (if config.password.isSome then 0x40 else 0)
    let var_part : List Nat :=
      [0x00, 0x04, 77, 81, 84, 84, 0x04, connect_flags,
       (config.keep_alive >>> 8) &&& 0xFF, config.keep_alive &&& 0xFF] ++
      write_string config.client_id ++
      (match config.username with | some u => write_string u | none => []) ++
      (match config.password with | some p => write_string p | none => [])
    let remaining_length := var_part.length
    some ((1 <<< 4) :: write_variable_length remaining_length ++ var_part)

/-- Message value (`mqtt_message_t`). -/
structure Message where
  topic : List Nat
  payload : List Nat
  qos : Nat
  retain : Bool
deriving Repr, DecidableEq

/-- `create_publish_packet` (mqtt_packet.c:220): QoS 0 only; fixed header
carries the retain bit; topic string then raw payload. -/
def create_publish_packet (message : Message) (buf_len : Nat) : Option (List Nat) :=
  if buf_len < 10 then none
  else if message.topic.length = 0 then none
  else
    let fixed_header := (3 <<< 4) ||| (if message.retain then 0x01 else 0)
    let var_part := write_string message.topic ++ message.payload.map byte
    some (fixed_header :: write_variable_length var_part.length ++ var_part)

/-- `create_pingreq_packet` (mqtt_packet.c:281). -/
def create_pingreq_packet (buf_len : Nat) : Option (List Nat) :=
  if buf_len < 2 then none else some [(12 <<< 4), 0x00]

/-- `create_disconnect_packet` (mqtt_packet.c:299). -/
def create_disconnect_packet (buf_len : Nat) : Option (List Nat) :=
  if buf_len < 2 then none else some [(14 <<< 4), 0x00]

/-- Payload serialization loop of `create_subscribe_packet`
(mqtt_packet.c:344): per topic, the topic string then the requested QoS
byte, failing on a NULL topic or when the QoS byte position would reach
`buf_len`.  `var_header_pos` tracks the absolute buffer position as in
the C. -/
def subscribe_payload : List (Option (List Nat)) → List Nat → Nat → Nat →
    Option (List Nat × Nat)
  | [], _, var_header_pos, _ => some ([], var_header_pos)
  | none :: _, _, _, _ => none
  | some t :: rest, qos, var_header_pos, buf_len =>
    let topic_bytes := write_string t
    let pos' := var_header_pos + topic_bytes.length
    if pos' ≥ buf_len then none
    else
      match subscribe_payload rest qos.tail (pos' + 1) buf_len with
      | none => none
      | some (tail_bytes, final_pos) =>
        some (topic_bytes ++ [(qos.headD 0) &&& 0x03] ++ tail_bytes, final_pos)

/-- `create_subscribe_packet` (mqtt_packet.c:321).  The source writes the
remaining-length field in place over the one reserved byte and then
memmoves the variable header up; when the field needs more than one byte
the moved region was already partly overwritten by the field itself, so
those leading bytes of the moved variable header are the trailing bytes
of the length field. -/
def create_subscribe_packet (topics : List (Option (List Nat))) (qos : List Nat)
    (packet_id : Nat) (buf_len : Nat) : Option (List Nat) :=
  if topics.length = 0 then none
  else if buf_len < 10 then none
  else
    match subscribe_payload topics qos 4 buf_len with
    | none => none
    | some (payload, var_header_pos) =>
      let var_header :=
        ((packet_id >>> 8) &&& 0xFF) :: (packet_id &&& 0xFF) :: payload
      let remaining_length := var_header_pos - 2
      let len_bytes := write_variable_length remaining_length
      some (((8 <<< 4) ||| 0x02) ::
        (len_bytes ++ len_bytes.drop 1 ++ var_header.drop (len_bytes.length - 1)))

/-- Payload serialization loop of `create_unsubscribe_packet`
(mqtt_packet.c:407): the topic strings back to back; no buffer bound is
checked here in the source. -/
def unsubscribe_payload : List (Option (List Nat)) → Option (List Nat)
  | [] => some []
  | none :: _ => none
  | some t :: rest =>
    match unsubscribe_payload rest with
    | none => none
    | some tail_bytes => some (write_string t ++ tail_bytes)

/-- `create_unsubscribe_packet` (mqtt_packet.c:386).  The fixed header is
`MQTT_PKT_UNSUBSCRIBE << 4` with no flag bits, and no packet identifier
is written ("No packet ID for QoS 0" in the source); the `packet_id`
argument is ignored.  The in-place remaining-length write has the same
overlap as in `create_subscribe_packet`. -/
def create_unsubscribe_packet (topics : List (Option (List Nat)))
    (_packet_id : Nat) (buf_len : Nat) : Option (List Nat) :=
  if topics.length = 0 then none
  else if buf_len < 10 then none
  else
    match unsubscribe_payload topics with
    | none => none
    | some payload =>
      let remaining_length := payload.length
      let len_bytes := write_variable_length remaining_length
      some ((10 <<< 4) ::
        (len_bytes ++ len_bytes.drop 1 ++ payload.drop (len_bytes.length - 1)))

/-! ## Engine state (`struct mqtt_s`, mqtt.c:37) -/

/-- `mqtt_state_t`. -/
inductive MqttState where
  | disconnected
  | connecting
  | connected
  | disconnecting
deriving Repr, DecidableEq

/-- The engine instance.  The spinlock and `last_activity` (always set to
0 in the source) carry no observable behaviour and are omitted;
`user_data` is opaque and not modelled. -/
structure Engine where
  config : Config
  state : MqttState
  next_packet_id : Nat        -- uint16
  keep_alive_timer : Nat      -- uint32
  waiting_pingresp : Bool
  missed_pingresp_count : Nat -- uint8
  reassembly : List Nat
deriving Repr, DecidableEq

/-- One observable callback or send-sink invocation. -/
inductive Event where
  | send (bytes : List Nat)
  | on_connection (connected : Bool) (return_code : Nat)
  | on_message (topic : List Nat) (payload : List Nat) (qos : Nat) (retain : Bool)
  | publish_ack (packet_id : Nat)
  | subscribe_ack (packet_id : Nat) (return_codes : List Nat)
  | unsubscribe_ack (packet_id : Nat)
deriving Repr, DecidableEq

/-- `mqtt_create` (mqtt.c:142): requires a non-empty client id (the NULL
config/handler checks have no counterpart, and the required send sink is
implicit in the event model).  `calloc` zero-initialises every field not
assigned explicitly. -/
def mqtt_create (config : Config) : Option Engine :=
  if config.client_id.length = 0 then none
  else some
    { config := config
      state := .disconnected
      next_packet_id := 1
      keep_alive_timer := 0
      waiting_pingresp := false
      missed_pingresp_count := 0
      reassembly := [] }

/-! ## Inbound dispatch (`process_packet`, mqtt.c:377) -/

/-- `process_packet`: parses one whole packet, returning the updated
engine and the callback/send events in invocation order.  The source's
`int` result is ignored by its only caller and is not modelled; error
paths leave the engine unchanged and fire nothing.  Optional callbacks
are modelled as installed (a NULL slot in the C merely suppresses the
corresponding event). -/
def process_packet (e : Engine) (data : List Nat) : Engine × List Event :=
  if data.length < 2 then (e, [])
  else
    let packet_type := (byteAt data 0 >>> 4) &&& 0x0F
    if packet_type = 2 then        -- MQTT_PKT_CONNACK
      if data.length ≥ 4 then
        let return_code := byteAt data 3
        if return_code = 0 then
          ({ e with state := .connected, missed_pingresp_count := 0 },
           [.on_connection true 0])
        else
          ({ e with state := .disconnected }, [.on_connection false return_code])
      else (e, [])
    else if packet_type = 3 then   -- MQTT_PKT_PUBLISH
      if data.length ≥ 4 then
        match read_variable_length (data.drop 1) with
        | none => (e, [])
        | some (_remaining_length, var_len_bytes) =>
          let pos := 1 + var_len_bytes
          match read_string (data.drop pos) 256 with
          | none => (e, [])
          | some (topic, topic_bytes) =>
            let pos := pos + topic_bytes
            let qos := (byteAt data 0 >>> 1) &&& 0x03
            if qos > 0 ∧ pos + 2 > data.length then (e, [])
            else
              let packet_id :=
                if qos > 0 then (byteAt data pos <<< 8) ||| byteAt data (pos + 1)
                else 0
              let pos := if qos > 0 then pos + 2 else pos
              let payload := (data.drop pos).map byte
              let retain := byteAt data 0 &&& 0x01 ≠ 0
              let events := [Event.on_message topic payload qos retain]
              let events := events ++
                (if qos = 1 then
                  [Event.send [(4 <<< 4), 0x02,
                    (packet_id >>> 8) &&& 0xFF, packet_id &&& 0xFF]]
                 else [])
              (e, events)
      else (e, [])
    else if packet_type = 4 then   -- MQTT_PKT_PUBACK
      if data.length ≥ 4 then
        (e, [.publish_ack ((byteAt data 2 <<< 8) ||| byteAt data 3)])
      else (e, [])
    else if packet_type = 9 then   -- MQTT_PKT_SUBACK
      if data.length ≥ 5 then
        let packet_id := (byteAt data 2 <<< 8) ||| byteAt data 3
        let return_code_count := data.length - 4
        if return_code_count ≤ 16 then
          (e, [.subscribe_ack packet_id ((data.drop 4).map byte)])
        else (e, [])
      else (e, [])
    else if packet_type = 11 then  -- MQTT_PKT_UNSUBACK
      if data.length ≥ 4 then
        (e, [.unsubscribe_ack ((byteAt data 2 <<< 8) ||| byteAt data 3)])
      else (e, [])
    else if packet_type = 13 then  -- MQTT_PKT_PINGRESP
      ({ e with waiting_pingresp := false, missed_pingresp_count := 0 }, [])
    else if packet_type = 14 then  -- MQTT_PKT_DISCONNECT
      ({ e with state := .disconnected }, [.on_connection false 0])
    else
      (e, [])                      -- unknown packet type - ignore

/-! ## Stream reassembly (`mqtt_input`, mqtt.c:540) -/

/-- Variable-length scanning loop of `get_expected_packet_length`
(mqtt.c:75): `buf` is the unread tail starting at `data[pos]`; returns 0
when the data runs out or a fourth length byte is reached (the
`multiplier > 128*128*128` check fires on the fourth byte before its
continuation bit is examined), else the total packet length
`pos + remaining_length` after the final byte. -/
def expected_length_loop : List Nat → Nat → Nat → Nat → Nat
  | [], _, _, _ => 0
  | b :: rest, pos, remaining_length, multiplier =>
    let encoded_byte := byte b
    let remaining_length := remaining_length + (encoded_byte &&& 0x7F) * multiplier
    let multiplier := multiplier * 128
    if multiplier > 128 * 128 * 128 then 0
    else if encoded_byte &&& 0x80 ≠ 0 then
      expected_length_loop rest (pos + 1) remaining_length multiplier
    else
      (pos + 1) + remaining_length

/-- `get_expected_packet_length` (mqtt.c:64): 0 means "cannot determine
yet" (also used for an over-long length field). -/
def get_expected_packet_length (data : List Nat) : Nat :=
  if data.length < 2 then 0
  else expected_length_loop (data.drop 1) 1 0 1

/-- The packet-peeling loop of `mqtt_input` (mqtt.c:574): processes each
complete packet in `work` in order (skipping, without dispatch, any whose
expected length exceeds `MQTT_MAX_PACKET_SIZE`), and returns the engine,
the events in order, and the unconsumed trailing bytes. -/
def input_loop (e : Engine) (work : List Nat) : Engine × List Event × List Nat :=
  if hw : work = [] then (e, [], [])
  else
    let expected_len := get_expected_packet_length work
    if hl : expected_len = 0 then (e, [], work)
    else if work.length < expected_len then (e, [], work)
    else
      let step :=
        if expected_len ≤ MQTT_MAX_PACKET_SIZE then
          process_packet e (work.take expected_len)
        else (e, [])
      let rest := input_loop step.1 (work.drop expected_len)
      (rest.1, step.2 ++ rest.2.1, rest.2.2)
termination_by work.length
decreasing_by
  simp only [List.length_drop]
  have : 0 < work.length := List.length_pos.mpr hw
  omega

/-- `mqtt_input` (mqtt.c:540): NULL/empty input is an error; otherwise
the new bytes are appended to any held reassembly bytes, complete packets
are dispatched, the trailing remainder is kept for reassembly, and the
call reports consuming exactly the new bytes.  Buffer reallocation is
modelled as always succeeding. -/
def mqtt_input (e : Engine) (data : List Nat) : Engine × List Event × Int :=
  if data.length = 0 then (e, [], -1)
  else
    let r := input_loop e (e.reassembly ++ data)
    ({ r.1 with reassembly := r.2.2 }, r.2.1, (data.length : Int))

/-! ## Facade operations (`mqtt.c`)

The caller-supplied send sink is modelled by `send_ret`, the `int` the
sink returns for the bytes it is handed; an `Event.send` is recorded
whenever the sink is invoked. -/

/-- `mqtt_get_packet_id` (mqtt.c:714): returns the current id and
increments it (`uint16_t` wrap), skipping the reserved value 0. -/
def mqtt_get_packet_id (e : Engine) : Engine × Nat :=
  let packet_id := e.next_packet_id
  let next := (e.next_packet_id + 1) % 65536
  let next := if next = 0 then 1 else next
  ({ e with next_packet_id := next }, packet_id)

/-- `mqtt_connect` (mqtt.c:199): only from `Disconnected`; serializes a
CONNECT into a 1024-byte scratch buffer, sends it, and on success enters
`Connecting` with the keep-alive accumulator reset. -/
def mqtt_connect (e : Engine) (send_ret : List Nat → Int) : Engine × List Event × Int :=
  if e.state ≠ .disconnected then (e, [], -1)
  else
    match create_connect_packet e.config 1024 with
    | none => (e, [], -1)
    | some packet =>
      if send_ret packet ≠ (packet.length : Int) then (e, [.send packet], -1)
      else ({ e with state := .connecting, keep_alive_timer := 0 },
            [.send packet], 0)

/-- `mqtt_disconnect` (mqtt.c:230): only from a non-`Disconnected`
state; best-effort DISCONNECT send (its result ignored), state to
`Disconnected`, reassembly buffer cleared, connection callback fired. -/
def mqtt_disconnect (e : Engine) (_send_ret : List Nat → Int) : Engine × List Event × Int :=
  if e.state = .disconnected then (e, [], -1)
  else
    ({ e with state := .disconnected, reassembly := [] },
     [.send [(14 <<< 4), 0x00], .on_connection false 0], 0)

/-- `mqtt_publish` (mqtt.c:264): only while `Connected` and only QoS 0;
serializes into a buffer sized from the message and sends.  No engine
field is ever written.  Allocation is modelled as succeeding. -/
def mqtt_publish (e : Engine) (send_ret : List Nat → Int) (message : Message) :
    Engine × List Event × Int :=
  if e.state ≠ .connected then (e, [], -1)
  else if message.qos ≠ 0 then (e, [], -1)
  else
    let required_size := (1 + 4) + (2 + message.topic.length) + message.payload.length
    match create_publish_packet message required_size with
    | none => (e, [], -1)
    | some packet =>
      if send_ret packet ≠ (packet.length : Int) then (e, [.send packet], -1)
      else (e, [.send packet], 0)

/-- `mqtt_subscribe` (mqtt.c:312): only while `Connected` and with every
requested QoS equal to 0.  A packet identifier is allocated *before*
serialization and sending, so those failure paths return with
`next_packet_id` already advanced. -/
def mqtt_subscribe (e : Engine) (send_ret : List Nat → Int)
    (topics : List (Option (List Nat))) (qos : List Nat) : Engine × List Event × Int :=
  if topics.length = 0 then (e, [], -1)
  else if e.state ≠ .connected then (e, [], -1)
  else if (List.range topics.length).any (fun i => qos.getD i 0 ≠ 0) then (e, [], -1)
  else
    let a := mqtt_get_packet_id e
    match create_subscribe_packet topics qos a.2 1024 with
    | none => (a.1, [], -1)
    | some packet =>
      if send_ret packet ≠ (packet.length : Int) then (a.1, [.send packet], -1)
      else (a.1, [.send packet], 0)

/-- `mqtt_unsubscribe` (mqtt.c:345): only while `Connected`; passes
packet id 0 to the serializer (which ignores it anyway). -/
def mqtt_unsubscribe (e : Engine) (send_ret : List Nat → Int)
    (topics : List (Option (List Nat))) : Engine × List Event × Int :=
  if topics.length = 0 then (e, [], -1)
  else if e.state ≠ .connected then (e, [], -1)
  else
    match create_unsubscribe_packet topics 0 1024 with
    | none => (e, [], -1)
    | some packet =>
      if send_ret packet ≠ (packet.length : Int) then (e, [.send packet], -1)
      else (e, [.send packet], 0)

/-- `mqtt_timer` (mqtt.c:629): accumulates elapsed milliseconds while
`Connected` with a nonzero keep-alive.  On reaching the deadline it sends
a PINGREQ and starts awaiting the response, or when already awaiting it
counts a missed response, disconnecting with
`MQTT_CONN_REFUSED_SERVER` (3) on the third consecutive miss. -/
def mqtt_timer (e : Engine) (elapsed_ms : Nat) : Engine × List Event × Int :=
  if e.state = .connected ∧ e.config.keep_alive > 0 then
    let keep_alive_timer := (e.keep_alive_timer + elapsed_ms) % 2 ^ 32
    let keep_alive_ms := e.config.keep_alive * 1000
    if keep_alive_timer ≥ keep_alive_ms then
      if ¬ e.waiting_pingresp then
        ({ e with waiting_pingresp := true, keep_alive_timer := 0 },
         [.send [(12 <<< 4), 0x00]], 0)
      else
        let missed := (e.missed_pingresp_count + 1) % 256
        if missed ≥ 3 then
          ({ e with missed_pingresp_count := missed,
                    keep_alive_timer := keep_alive_timer, state := .disconnected },
           [.on_connection false 3], 0)
        else
          ({ e with missed_pingresp_count := missed,
                    keep_alive_timer := keep_alive_timer }, [], 0)
    else ({ e with keep_alive_timer := keep_alive_timer }, [], 0)
  else (e, [], 0)

/-- Feeding a sequence of chunks to `mqtt_input` in order, collecting
every event. -/
def mqtt_input_many (e : Engine) : List (List Nat) → Engine × List Event
  | [] => (e, [])
  | c :: cs =>
    let r := mqtt_input e c
    let rest := mqtt_input_many r.1 cs
    (rest.1, r.2.1 ++ rest.2)

/-- A byte list that is one complete MQTT packet as the reassembler
frames it: nonempty, and its expected length is exactly its length. -/
def complete_packet (p : List Nat) : Prop :=
  0 < p.length ∧ get_expected_packet_length p = p.length

instance (p : List Nat) : Decidable (complete_packet p) := by
  unfold complete_packet; infer_instance

/-! ## Sample values used to instantiate theorems -/

/-- A minimal valid configuration: client id `"c"`, keep-alive 60 s. -/
def sample_config : Config := ⟨[99], none, none, 60, true⟩

/-- The engine `mqtt_create` builds from `sample_config`. -/
def sample_engine : Engine :=
  ⟨sample_config, .disconnected, 1, 0, false, 0, []⟩

/-- `sample_engine` after a successful connection handshake. -/
def connected_engine : Engine := { sample_engine with state := .connected }

/-- A complete inbound packet of declared total length 131073 bytes
(remaining length 131069 encoded as `FD FF 07`), one byte over the
128 KiB maximum. -/
def oversize_packet : List Nat :=
  0x30 :: 0xFD :: 0xFF :: 0x07 :: List.replicate 131069 0

/-! ## C8: variable-length round trip -/

set_option maxRecDepth 4096 in
/-- C8: for every N in {0, 127, 128, 16383, 16384, 2097151, 2097152,
268435455}, encoding N with the variable-length writer and decoding the
result yields N again and reports the same byte count as was written,
and that byte count is respectively 1, 1, 2, 2, 3, 3, 4, 4. -/
theorem varlen_round_trip :
    ([0, 127, 128, 16383, 16384, 2097151, 2097152, 268435455].map
        (fun n => read_variable_length (write_variable_length n))
      = [some (0, 1), some (127, 1), some (128, 2), some (16383, 2),
         some (16384, 3), some (2097151, 3), some (2097152, 4),
         some (268435455, 4)]) ∧
    ([0, 127, 128, 16383, 16384, 2097151, 2097152, 268435455].map
        (fun n => (write_variable_length n).length)
      = [1, 1, 2, 2, 3, 3, 4, 4]) := by
  constructor
  · simp only [List.map]
    simp [write_variable_length, read_variable_length, read_variable_length_aux, byte]
    decide
  · simp only [List.map]
    simp [write_variable_length]

/-! ## C2: UNSUBSCRIBE wire layout -/

/-- C2 (against the claim): for the topic list `["a"]` the UNSUBSCRIBE
serializer emits `A0 03 00 01 61`: the fixed-header low nibble is 0000,
not 0010, and the two bytes after the remaining length are the topic
string's length prefix — no packet identifier is present.  The packet-id
argument is ignored (42 gives the same bytes), and the facade sends
these bytes unchanged. -/
theorem unsubscribe_wire_layout :
    create_unsubscribe_packet [some [97]] 0 1024 = some [0xA0, 0x03, 0x00, 0x01, 97] ∧
    create_unsubscribe_packet [some [97]] 42 1024 = some [0xA0, 0x03, 0x00, 0x01, 97] ∧
    0xA0 &&& 0x0F = 0 ∧
    mqtt_unsubscribe connected_engine (fun b => (b.length : Int)) [some [97]] =
      (connected_engine, [.send [0xA0, 0x03, 0x00, 0x01, 97]], 0) := by
  refine ⟨?_, ?_, by decide, ?_⟩ <;>
    simp [mqtt_unsubscribe, connected_engine, sample_engine, sample_config,
      create_unsubscribe_packet, unsubscribe_payload, write_string, write_variable_length]

/-! ## C7: packet-id allocator -/

/-- C7: for a valid engine (`next_packet_id` in the `uint16` range and
nonzero, as `mqtt_create` establishes), the allocator never returns 0:
a freshly created engine's first call returns 1, the stored next id
stays nonzero and in range, and the value returned by the following
call is the previous value plus 1, except after 65535 where it is 1. -/
theorem packet_id_allocator (e : Engine)
    (h1 : 0 < e.next_packet_id) (h2 : e.next_packet_id < 65536) :
    (mqtt_get_packet_id e).2 ≠ 0 ∧
    0 < (mqtt_get_packet_id e).1.next_packet_id ∧
    (mqtt_get_packet_id e).1.next_packet_id < 65536 ∧
    (mqtt_get_packet_id (mqtt_get_packet_id e).1).2 =
      (if (mqtt_get_packet_id e).2 = 65535 then 1 else (mqtt_get_packet_id e).2 + 1) ∧
    (∀ cfg e0, mqtt_create cfg = some e0 → (mqtt_get_packet_id e0).2 = 1) := by
  refine ⟨?_, ?_, ?_, ?_, ?_⟩
  · simp only [mqtt_get_packet_id]; omega
  · simp only [mqtt_get_packet_id]
    split <;> omega
  · simp only [mqtt_get_packet_id]
    split <;> omega
  · simp only [mqtt_get_packet_id]
    rcases Nat.lt_or_ge e.next_packet_id 65535 with h | h
    · have hm : (e.next_packet_id + 1) % 65536 = e.next_packet_id + 1 :=
        Nat.mod_eq_of_lt (by omega)
      simp only [hm]
      rw [if_neg (by omega), if_neg (by omega)]
    · have he : e.next_packet_id = 65535 := by omega
      simp [he]
  · intro cfg e0 hc
    simp only [mqtt_create] at hc
    split at hc
    · exact absurd hc (by simp)
    · cases hc
      rfl

/-- Witness for C7 at the freshly created sample engine. -/
theorem packet_id_allocator_witness :
    0 < sample_engine.next_packet_id ∧ sample_engine.next_packet_id < 65536 ∧
    (mqtt_get_packet_id sample_engine).2 ≠ 0 ∧
    (mqtt_get_packet_id (mqtt_get_packet_id sample_engine).1).2 =
      (if (mqtt_get_packet_id sample_engine).2 = 65535
        then 1 else (mqtt_get_packet_id sample_engine).2 + 1) :=
  ⟨by decide, by decide,
   (packet_id_allocator sample_engine (by decide) (by decide)).1,
   (packet_id_allocator sample_engine (by decide) (by decide)).2.2.2.1⟩

/-! ## C10: accepted CONNACK from any prior state -/

/-- C10: an accepted CONNACK (`20 02 00 00`) delivered through `input`
sets the state to `Connected` and resets the missed-ping counter from
*every* prior engine state — the CONNACK handler performs no
current-state check — leaving every other field unchanged. -/
theorem connack_accept_from_any_state (e : Engine) (h : e.reassembly = []) :
    mqtt_input e [0x20, 0x02, 0x00, 0x00] =
      ({ e with state := .connected, missed_pingresp_count := 0 },
       [.on_connection true 0], 4) := by
  simp +decide [mqtt_input, h, input_loop, get_expected_packet_length,
    expected_length_loop, byte, byteAt, process_packet, MQTT_MAX_PACKET_SIZE]

/-- Witness for C10: the accepted CONNACK applied to an engine that is
already `Connected` (and to one that is `Disconnected`). -/
theorem connack_accept_from_any_state_witness :
    connected_engine.reassembly = [] ∧
    mqtt_input connected_engine [0x20, 0x02, 0x00, 0x00] =
      ({ connected_engine with state := .connected, missed_pingresp_count := 0 },
       [.on_connection true 0], 4) ∧
    mqtt_input sample_engine [0x20, 0x02, 0x00, 0x00] =
      ({ sample_engine with state := .connected, missed_pingresp_count := 0 },
       [.on_connection true 0], 4) :=
  ⟨rfl, connack_accept_from_any_state connected_engine rfl,
   connack_accept_from_any_state sample_engine rfl⟩

/-! ## C6: CONNACK return-code dispatch -/

/-- C6 counterexample: two CONNACK packets whose return codes 6 and 200
both lie outside 0..=5 are reported with *different* refusal codes (each
passed through verbatim), so out-of-range values are not collapsed to a
single generic "refused, other" refusal. -/
theorem connack_out_of_range_not_generic :
    (process_packet sample_engine [0x20, 0x02, 0x00, 6]).2 =
      [.on_connection false 6] ∧
    (process_packet sample_engine [0x20, 0x02, 0x00, 200]).2 =
      [.on_connection false 200] ∧
    (process_packet sample_engine [0x20, 0x02, 0x00, 6]).2 ≠
      (process_packet sample_engine [0x20, 0x02, 0x00, 200]).2 := by
  decide

/-- C6 as amended: for a CONNACK of at least 4 bytes, return code 0
yields `on_connection(true, 0)` with the state becoming `Connected` (and
the missed-ping counter reset); *every* nonzero return-code byte — the
typed refusals 1..=5 and any value outside that range alike — yields
`on_connection(false, code)` with the code passed through verbatim and
the state becoming `Disconnected`. -/
theorem connack_dispatch (e : Engine) (p : List Nat)
    (hlen : 4 ≤ p.length) (htype : (byteAt p 0 >>> 4) &&& 0x0F = 2) :
    (byteAt p 3 = 0 →
      process_packet e p =
        ({ e with state := .connected, missed_pingresp_count := 0 },
         [.on_connection true 0])) ∧
    (byteAt p 3 ≠ 0 →
      process_packet e p =
        ({ e with state := .disconnected },
         [.on_connection false (byteAt p 3)])) := by
  have h2 : ¬ p.length < 2 := by omega
  constructor <;> intro h <;>
    simp [process_packet, h2, htype, hlen, h]

/-- Witness for C6's amended theorem at an accepted and a refused
CONNACK. -/
theorem connack_dispatch_witness :
    (4 ≤ ([0x20, 0x02, 0x00, 0x00] : List Nat).length ∧
      process_packet sample_engine [0x20, 0x02, 0x00, 0x00] =
        ({ sample_engine with state := .connected, missed_pingresp_count := 0 },
         [.on_connection true 0])) ∧
    process_packet sample_engine [0x20, 0x02, 0x00, 0x04] =
      ({ sample_engine with state := .disconnected }, [.on_connection false 4]) :=
  ⟨⟨by decide,
    (connack_dispatch sample_engine [0x20, 0x02, 0x00, 0x00]
      (by decide) (by decide)).1 (by decide)⟩,
   (connack_dispatch sample_engine [0x20, 0x02, 0x00, 0x04]
      (by decide) (by decide)).2 (by decide)⟩

/-! ## C5: outbound errors and state mutation -/

/-- The subscribe call used below: sample engine, a send sink that
reports a short write, one topic `"a"` at QoS 0.  It returns -1. -/
theorem subscribe_fail_ret :
    (mqtt_subscribe connected_engine (fun _ => 0) [some [97]] [0]).2.2 = -1 := by
  simp [mqtt_subscribe, mqtt_get_packet_id, connected_engine, sample_engine,
    sample_config, create_subscribe_packet, subscribe_payload, write_string,
    write_variable_length]

/-- C5 counterexample: a subscribe whose send sink reports a short write
returns the error -1, yet the stored next packet identifier has advanced
from 1 to 2 — the facade allocates the id before serializing and
sending, so a failing subscribe does mutate the engine state. -/
theorem subscribe_error_mutates_state :
    (mqtt_subscribe connected_engine (fun _ => 0) [some [97]] [0]).2.2 = -1 ∧
    (mqtt_subscribe connected_engine (fun _ => 0) [some [97]] [0]).1.next_packet_id = 2 ∧
    connected_engine.next_packet_id = 1 := by
  refine ⟨subscribe_fail_ret, ?_, by decide⟩
  simp [mqtt_subscribe, mqtt_get_packet_id, connected_engine, sample_engine,
    sample_config, create_subscribe_packet, subscribe_payload, write_string,
    write_variable_length]

/-- C5 as amended: an erroring `mqtt_connect`, `mqtt_publish` or
`mqtt_unsubscribe` leaves the whole engine unchanged; an erroring
`mqtt_subscribe` leaves every field — connection state, reassembly
buffer, configuration, timers, flags — unchanged *except* that the next
packet identifier may already have been advanced by the allocation that
precedes serialization and sending. -/
theorem outbound_error_state (e : Engine) (f : List Nat → Int)
    (m : Message) (ts : List (Option (List Nat))) (q : List Nat) :
    ((mqtt_connect e f).2.2 = -1 → (mqtt_connect e f).1 = e) ∧
    ((mqtt_publish e f m).2.2 = -1 → (mqtt_publish e f m).1 = e) ∧
    ((mqtt_unsubscribe e f ts).2.2 = -1 → (mqtt_unsubscribe e f ts).1 = e) ∧
    ((mqtt_subscribe e f ts q).2.2 = -1 →
      (mqtt_subscribe e f ts q).1 =
        { e with next_packet_id := (mqtt_subscribe e f ts q).1.next_packet_id }) := by
  refine ⟨?_, ?_, ?_, ?_⟩
  · by_cases h1 : e.state ≠ MqttState.disconnected
    · simp [mqtt_connect, h1]
    · rcases hcp : create_connect_packet e.config 1024 with _ | pkt
      · simp [mqtt_connect, h1, hcp]
      · by_cases hs : f pkt ≠ (pkt.length : Int)
        · simp [mqtt_connect, h1, hcp, hs]
        · intro h; exact absurd h (by simp [mqtt_connect, h1, hcp, hs])
  · by_cases h1 : e.state ≠ MqttState.connected
    · simp [mqtt_publish, h1]
    · by_cases h2 : m.qos ≠ 0
      · simp [mqtt_publish, h1, h2]
      · rcases hcp : create_publish_packet m
            ((1 + 4) + (2 + m.topic.length) + m.payload.length) with _ | pkt
        · simp [mqtt_publish, h1, h2, hcp]
        · by_cases hs : f pkt ≠ (pkt.length : Int)
          · simp [mqtt_publish, h1, h2, hcp, hs]
          · intro h; exact absurd h (by simp [mqtt_publish, h1, h2, hcp, hs])
  · by_cases h0 : ts.length = 0
    · simp [mqtt_unsubscribe, h0]
    · by_cases h1 : e.state ≠ MqttState.connected
      · simp [mqtt_unsubscribe, h0, h1]
      · rcases hcp : create_unsubscribe_packet ts 0 1024 with _ | pkt
        · simp [mqtt_unsubscribe, h0, h1, hcp]
        · by_cases hs : f pkt ≠ (pkt.length : Int)
          · simp [mqtt_unsubscribe, h0, h1, hcp, hs]
          · intro h; exact absurd h (by simp [mqtt_unsubscribe, h0, h1, hcp, hs])
  · intro h
    unfold mqtt_subscribe
    repeat' split <;> try rfl
    rcases hcp : create_subscribe_packet ts q (mqtt_get_packet_id e).2 1024 with _ | pkt <;>
      simp only [hcp] <;> first | rfl | (split <;> rfl)

/-- Witness for C5's amended theorem: a connect attempted while already
connected fails and leaves the engine unchanged, and the failing
subscribe of the counterexample changes nothing but the packet id. -/
theorem outbound_error_state_witness :
    ((mqtt_connect connected_engine (fun _ => 0)).2.2 = -1 ∧
      (mqtt_connect connected_engine (fun _ => 0)).1 = connected_engine) ∧
    ((mqtt_subscribe connected_engine (fun _ => 0) [some [97]] [0]).2.2 = -1 ∧
      (mqtt_subscribe connected_engine (fun _ => 0) [some [97]] [0]).1 =
        { connected_engine with
            next_packet_id :=
              (mqtt_subscribe connected_engine (fun _ => 0) [some [97]] [0]).1.next_packet_id }) :=
  ⟨⟨by decide,
    (outbound_error_state connected_engine (fun _ => 0)
      ⟨[97], [], 0, false⟩ [some [97]] [0]).1 (by decide)⟩,
   ⟨subscribe_fail_ret,
    (outbound_error_state connected_engine (fun _ => 0)
      ⟨[97], [], 0, false⟩ [some [97]] [0]).2.2.2 subscribe_fail_ret⟩⟩

/-! ## C3: keep-alive supervision -/

/-- C3: with keep-alive K > 0 seconds configured (K within the `uint16`
range) and the engine freshly `Connected` (timer zero, not awaiting, no
misses), the first `timer(K*1000)` emits exactly one PINGREQ through the
send sink and sets the awaiting flag; each of the next ticks worth
another K seconds, with no PINGRESP in between, increments the
missed-ping counter; the third such tick drives the counter to 3, sets
the state to `Disconnected` and fires
`on_connection(false, 3)` (`MQTT_CONN_REFUSED_SERVER`, server
unavailable). -/
theorem keep_alive_escalation (e : Engine) (K : Nat) (hK : 0 < K) (hK2 : K < 65536)
    (hcfg : e.config.keep_alive = K) (hst : e.state = .connected)
    (ht : e.keep_alive_timer = 0) (hwp : e.waiting_pingresp = false)
    (hm : e.missed_pingresp_count = 0) :
    mqtt_timer e (K * 1000) =
      ({ e with waiting_pingresp := true, keep_alive_timer := 0 },
       [.send [0xC0, 0x00]], 0) ∧
    mqtt_timer { e with waiting_pingresp := true, keep_alive_timer := 0 } (K * 1000) =
      ({ e with
          waiting_pingresp := true
          keep_alive_timer := K * 1000
          missed_pingresp_count := 1 }, [], 0) ∧
    mqtt_timer
      { e with
          waiting_pingresp := true
          keep_alive_timer := K * 1000
          missed_pingresp_count := 1 } (K * 1000) =
      ({ e with
          waiting_pingresp := true
          keep_alive_timer := K * 2000
          missed_pingresp_count := 2 }, [], 0) ∧
    mqtt_timer
      { e with
          waiting_pingresp := true
          keep_alive_timer := K * 2000
          missed_pingresp_count := 2 } (K * 1000) =
      ({ e with
          waiting_pingresp := true
          keep_alive_timer := K * 3000
          missed_pingresp_count := 3
          state := .disconnected },
       [.on_connection false 3], 0) := by
  have hpow : (2 : Nat) ^ 32 = 4294967296 := by norm_num
  have hmod1 : K * 1000 % 4294967296 = K * 1000 := by omega
  have hmod2 : (K * 1000 + K * 1000) % 4294967296 = K * 2000 := by omega
  have hmod3 : (K * 2000 + K * 1000) % 4294967296 = K * 3000 := by omega
  have hle2 : K * 1000 ≤ K * 2000 := by omega
  have hle3 : K * 1000 ≤ K * 3000 := by omega
  have h192 : (12 <<< 4 : Nat) = 0xC0 := by decide
  refine ⟨?_, ?_, ?_, ?_⟩ <;>
    simp [mqtt_timer, hcfg, hst, ht, hwp, hm, hK, hpow, hmod1, hmod2, hmod3,
      hle2, hle3, h192]

/-- Witness for C3 with K = 60 at the connected sample engine. -/
theorem keep_alive_escalation_witness :
    mqtt_timer connected_engine 60000 =
      ({ connected_engine with waiting_pingresp := true, keep_alive_timer := 0 },
       [.send [0xC0, 0x00]], 0) ∧
    mqtt_timer
      { connected_engine with
          waiting_pingresp := true
          keep_alive_timer := 60 * 2000
          missed_pingresp_count := 2 } 60000 =
      ({ connected_engine with
          waiting_pingresp := true
          keep_alive_timer := 60 * 3000
          missed_pingresp_count := 3
          state := .disconnected },
       [.on_connection false 3], 0) := by
  have h := keep_alive_escalation connected_engine 60 (by decide) (by decide)
    rfl rfl rfl rfl rfl
  exact ⟨h.1, h.2.2.2⟩

/-! ## C4: oversize packet drop -/

/-- C4: an inbound packet whose declared total length exceeds the
128 KiB maximum, delivered whole to `input`, is consumed (the call
reports eating every byte and buffers nothing) while firing no handler
and leaving the engine — connection state included — unchanged. -/
theorem oversize_drop (e : Engine) (p : List Nat) (hr : e.reassembly = [])
    (hc : get_expected_packet_length p = p.length)
    (hov : MQTT_MAX_PACKET_SIZE < p.length) :
    mqtt_input e p = (e, [], (p.length : Int)) := by
  have hlen : 131072 < p.length := by
    simpa [MQTT_MAX_PACKET_SIZE] using hov
  have hne : p ≠ [] := by
    intro h; rw [h] at hlen; simp at hlen
  have hloop : input_loop e p = (e, [], []) := by
    rw [input_loop]
    rw [dif_neg hne]
    simp only [hc]
    rw [dif_neg (by omega : ¬ p.length = 0)]
    rw [if_neg (by omega : ¬ p.length < p.length)]
    rw [if_neg (by exact Nat.not_le.mpr hov)]
    rw [List.drop_length]
    rw [input_loop]
    simp
  have h0 : ¬ p.length = 0 := by omega
  simp only [mqtt_input, hr, List.nil_append, h0, if_false, hloop]
  rw [← hr]

/-- Witness for C4: `oversize_packet` (declared length 131073) fed to
the sample engine. -/
theorem oversize_drop_witness :
    sample_engine.reassembly = [] ∧
    get_expected_packet_length oversize_packet = oversize_packet.length ∧
    MQTT_MAX_PACKET_SIZE < oversize_packet.length ∧
    mqtt_input sample_engine oversize_packet =
      (sample_engine, [], (oversize_packet.length : Int)) := by
  have hlen : oversize_packet.length = 131073 := by
    rw [oversize_packet]
    rw [List.length_cons, List.length_cons, List.length_cons, List.length_cons,
      List.length_replicate]
  have hgep : get_expected_packet_length oversize_packet = 131073 := by
    rw [get_expected_packet_length]
    rw [if_neg (by rw [hlen]; omega)]
    show expected_length_loop (0xFD :: 0xFF :: 0x07 :: List.replicate 131069 0) 1 0 1
      = 131073
    rw [expected_length_loop, expected_length_loop, expected_length_loop]
    decide
  have hov : MQTT_MAX_PACKET_SIZE < oversize_packet.length := by
    rw [hlen, MQTT_MAX_PACKET_SIZE]; omega
  exact ⟨rfl, hgep.trans hlen.symm, hov,
    oversize_drop sample_engine oversize_packet rfl (hgep.trans hlen.symm) hov⟩

/-! ## C9: QoS-1 PUBLISH acknowledgement -/

/-- Joining two bytes with `(hi << 8) | lo` is base-256 positional
arithmetic when `lo` fits in a byte. -/
theorem lor_shift8_eq (a b : Nat) (hb : b < 256) : (a <<< 8) ||| b = a * 256 + b := by
  rw [Nat.shiftLeft_eq]
  have h := Nat.mul_add_lt_is_or (i := 8) (b := b) (by omega) a
  rw [Nat.mul_comm a]
  norm_num at h ⊢
  omega

/-- `((hi << 8) | lo) >> 8 & 0xFF` recovers the high byte. -/
theorem byte_pair_hi (a b : Nat) (ha : a < 256) (hb : b < 256) :
    (((a <<< 8) ||| b) >>> 8) &&& 0xFF = a := by
  rw [lor_shift8_eq a b hb, Nat.shiftRight_eq_div_pow]
  have h1 : (a * 256 + b) / 2 ^ 8 = a := by
    norm_num
    omega
  rw [h1]
  have h2 := Nat.and_pow_two_sub_one_of_lt_two_pow (x := a) (n := 8) (by omega)
  norm_num at h2
  exact h2

/-- `((hi << 8) | lo) & 0xFF` recovers the low byte. -/
theorem byte_pair_lo (a b : Nat) (hb : b < 256) :
    ((a <<< 8) ||| b) &&& 0xFF = b := by
  rw [lor_shift8_eq a b hb]
  have h := Nat.and_pow_two_sub_one_eq_mod (a * 256 + b) 8
  norm_num at h
  rw [h]
  omega

/-- Every `byteAt` read is in the `uint8` range. -/
theorem byteAt_lt_256 (l : List Nat) (i : Nat) : byteAt l i < 256 := by
  unfold byteAt byte
  omega

/-- C9: a complete inbound PUBLISH whose fixed-header QoS bits equal 1
and that parses successfully (variable length, topic string, and room
for the packet id) makes the engine fire `on_message` first and then
hand the send sink a 4-byte PUBACK `40 02 hi lo` whose last two bytes
are exactly the two packet-identifier bytes read from the PUBLISH
variable header; the engine state is unchanged. -/
theorem qos1_publish_puback (e : Engine) (p : List Nat)
    (hlen : 4 ≤ p.length)
    (htype : (byteAt p 0 >>> 4) &&& 0x0F = 3)
    (hqos : (byteAt p 0 >>> 1) &&& 0x03 = 1)
    (rl vb : Nat) (hvl : read_variable_length (p.drop 1) = some (rl, vb))
    (topic : List Nat) (tb : Nat)
    (hts : read_string (p.drop (1 + vb)) 256 = some (topic, tb))
    (hid : 1 + vb + tb + 2 ≤ p.length) :
    (process_packet e p).1 = e ∧
    (process_packet e p).2 =
      [.on_message topic ((p.drop (1 + vb + tb + 2)).map byte) 1
         (decide (byteAt p 0 &&& 0x01 ≠ 0)),
       .send [0x40, 0x02, byteAt p (1 + vb + tb), byteAt p (1 + vb + tb + 1)]] := by
  have h2 : ¬ p.length < 2 := by omega
  have hnot2 : ¬ ((byteAt p 0 >>> 4) &&& 0x0F = 2) := by rw [htype]; decide
  have hover : ¬ (1 + vb + tb + 2 > p.length) := by omega
  have hhi := byte_pair_hi (byteAt p (1 + vb + tb)) (byteAt p (1 + vb + tb + 1))
    (byteAt_lt_256 p (1 + vb + tb)) (byteAt_lt_256 p (1 + vb + tb + 1))
  have hlo := byte_pair_lo (byteAt p (1 + vb + tb)) (byteAt p (1 + vb + tb + 1))
    (byteAt_lt_256 p (1 + vb + tb + 1))
  have hvl' : read_variable_length p.tail = some (rl, vb) := by
    rw [← List.drop_one]; exact hvl
  constructor <;>
    simp [process_packet, h2, hnot2, htype, hlen, hvl, hvl', hts, hqos, hover,
      hhi, hlo]

/-- Witness for C9 at the 8-byte QoS-1 PUBLISH
`32 06 00 01 61 01 02 78` (topic `"a"`, packet id 0x0102, payload
`"x"`). -/
theorem qos1_publish_puback_witness :
    read_variable_length (([0x32, 0x06, 0x00, 0x01, 97, 0x01, 0x02, 120] : List Nat).drop 1)
      = some (6, 1) ∧
    read_string (([0x32, 0x06, 0x00, 0x01, 97, 0x01, 0x02, 120] : List Nat).drop 2) 256
      = some ([97], 3) ∧
    (process_packet sample_engine [0x32, 0x06, 0x00, 0x01, 97, 0x01, 0x02, 120]).1
      = sample_engine ∧
    (process_packet sample_engine [0x32, 0x06, 0x00, 0x01, 97, 0x01, 0x02, 120]).2
      = [.on_message [97] [120] 1 false, .send [0x40, 0x02, 0x01, 0x02]] := by
  have h := qos1_publish_puback sample_engine
    [0x32, 0x06, 0x00, 0x01, 97, 0x01, 0x02, 120]
    (by decide) (by decide) (by decide) 6 1 (by decide) [97] 3 (by decide) (by decide)
  exact ⟨by decide, by decide, h.1, h.2⟩

/-! ## C1: fragmentation transparency

The reassembler's observable behaviour depends only on the byte stream,
not on how it is sliced: the key facts are that the expected-length scan
is stable under appending bytes (it reads only the fixed header and
length field), and that what the loop leaves behind never contains a
complete packet. -/

/-- A successful expected-length scan is unaffected by bytes appended
after the buffer: the scan only ever reads up to the final length
byte. -/
theorem expected_length_loop_append (buf : List Nat) :
    ∀ (ext : List Nat) (pos rl m : Nat),
      expected_length_loop buf pos rl m ≠ 0 →
      expected_length_loop (buf ++ ext) pos rl m =
        expected_length_loop buf pos rl m := by
  induction buf with
  | nil =>
    intro ext pos rl m h
    exact absurd rfl h
  | cons b rest ih =>
    intro ext pos rl m h
    rw [List.cons_append]
    rw [expected_length_loop] at h ⊢
    rw [expected_length_loop]
    by_cases hm : m * 128 > 128 * 128 * 128
    · simp only [if_pos hm] at h
      exact absurd rfl h
    · simp only [if_neg hm] at h ⊢
      by_cases hcont : byte b &&& 0x80 ≠ 0
      · simp only [if_pos hcont] at h ⊢
        exact ih ext (pos + 1) (rl + (byte b &&& 0x7F) * m) (m * 128) h
      · simp only [if_neg hcont]

/-- `get_expected_packet_length` is stable under appending more data
once it has produced a nonzero answer. -/
theorem get_expected_packet_length_append (a b : List Nat)
    (h : get_expected_packet_length a ≠ 0) :
    get_expected_packet_length (a ++ b) = get_expected_packet_length a := by
  rw [get_expected_packet_length] at h ⊢
  rw [get_expected_packet_length]
  by_cases h2 : a.length < 2
  · rw [if_pos h2] at h
    exact absurd rfl h
  · rw [if_neg h2] at h
    have h2' : ¬ (a ++ b).length < 2 := by
      rw [List.length_append]; omega
    rw [if_neg h2, if_neg h2']
    rw [List.drop_append_of_le_length (by omega)]
    exact expected_length_loop_append (a.drop 1) b 1 0 1 h

/-- `process_packet` never reads or writes the reassembly buffer: its
behaviour on an engine with a replaced buffer is the same behaviour with
the buffer carried through. -/
theorem process_packet_set_reassembly (e : Engine) (p rb : List Nat) :
    process_packet { e with reassembly := rb } p =
      ({ (process_packet e p).1 with reassembly := rb },
       (process_packet e p).2) := by
  unfold process_packet
  by_cases c1 : p.length < 2
  · simp only [if_pos c1]
  · simp only [if_neg c1]
    by_cases c2 : byteAt p 0 >>> 4 &&& 0x0F = 2
    · simp only [if_pos c2]
      by_cases c3 : p.length ≥ 4
      · simp only [if_pos c3]
        by_cases c4 : byteAt p 3 = 0
        · simp only [if_pos c4]
        · simp only [if_neg c4]
      · simp only [if_neg c3]
    · simp only [if_neg c2]
      by_cases c5 : byteAt p 0 >>> 4 &&& 0x0F = 3
      · simp only [if_pos c5]
        by_cases c6 : p.length ≥ 4
        · simp only [if_pos c6]
          rcases hvl : read_variable_length (p.drop 1) with _ | ⟨rl, vb⟩
          · simp only [hvl]
          · simp only [hvl]
            rcases hts : read_string (p.drop (1 + vb)) 256 with _ | ⟨tp, tb⟩
            · simp only [hts]
            · simp only [hts]
              by_cases c7 : (byteAt p 0 >>> 1) &&& 0x03 > 0 ∧ 1 + vb + tb + 2 > p.length
              · simp only [if_pos c7]
              · simp only [if_neg c7]
        · simp only [if_neg c6]
      · simp only [if_neg c5]
        by_cases c8 : byteAt p 0 >>> 4 &&& 0x0F = 4
        · simp only [if_pos c8]
          by_cases c9 : p.length ≥ 4
          · simp only [if_pos c9]
          · simp only [if_neg c9]
        · simp only [if_neg c8]
          by_cases c10 : byteAt p 0 >>> 4 &&& 0x0F = 9
          · simp only [if_pos c10]
            by_cases c11 : p.length ≥ 5
            · simp only [if_pos c11]
              by_cases c12 : p.length - 4 ≤ 16
              · simp only [if_pos c12]
              · simp only [if_neg c12]
            · simp only [if_neg c11]
          · simp only [if_neg c10]
            by_cases c13 : byteAt p 0 >>> 4 &&& 0x0F = 11
            · simp only [if_pos c13]
              by_cases c14 : p.length ≥ 4
              · simp only [if_pos c14]
              · simp only [if_neg c14]
            · simp only [if_neg c13]
              by_cases c15 : byteAt p 0 >>> 4 &&& 0x0F = 13
              · simp only [if_pos c15]
              · simp only [if_neg c15]
                by_cases c16 : byteAt p 0 >>> 4 &&& 0x0F = 14
                · simp only [if_pos c16]
                · simp only [if_neg c16]

/-- `input_loop` never reads the reassembly buffer either: replacing it
up front replaces it in the result and changes nothing else. -/
theorem input_loop_set : ∀ (n : Nat) (e : Engine) (w rb : List Nat), w.length ≤ n →
    input_loop { e with reassembly := rb } w =
      ({ (input_loop e w).1 with reassembly := rb },
       (input_loop e w).2.1, (input_loop e w).2.2) := by
  intro n
  induction n with
  | zero =>
    intro e w rb hn
    have hw : w = [] := by
      cases w with
      | nil => rfl
      | cons x xs => simp at hn
    subst hw
    rw [input_loop, input_loop]
    simp
  | succ n ih =>
    intro e w rb hn
    by_cases hw : w = []
    · subst hw
      rw [input_loop, input_loop]
      simp
    · rw [input_loop, input_loop]
      rw [dif_neg hw, dif_neg hw]
      by_cases hl : get_expected_packet_length w = 0
      · simp only [dif_pos hl]
      · simp only [dif_neg hl]
        by_cases hlen : w.length < get_expected_packet_length w
        · simp only [if_pos hlen]
        · simp only [if_neg hlen]
          have hdrop : (w.drop (get_expected_packet_length w)).length ≤ n := by
            rw [List.length_drop]
            have : 0 < w.length := List.length_pos.mpr hw
            omega
          by_cases hmax : get_expected_packet_length w ≤ MQTT_MAX_PACKET_SIZE
          · simp only [if_pos hmax]
            rw [process_packet_set_reassembly]
            rw [ih (process_packet e (w.take (get_expected_packet_length w))).1
              (w.drop (get_expected_packet_length w)) rb hdrop]
          · simp only [if_neg hmax]
            rw [ih e (w.drop (get_expected_packet_length w)) rb hdrop]

/-- Splitting the loop's input: processing `a ++ b` processes `a` first
and then continues with what `a` left over, followed by `b`; the events
concatenate in order. -/
theorem input_loop_append : ∀ (n : Nat) (e : Engine) (a b : List Nat), a.length ≤ n →
    input_loop e (a ++ b) =
      ((input_loop (input_loop e a).1 ((input_loop e a).2.2 ++ b)).1,
       (input_loop e a).2.1 ++
         (input_loop (input_loop e a).1 ((input_loop e a).2.2 ++ b)).2.1,
       (input_loop (input_loop e a).1 ((input_loop e a).2.2 ++ b)).2.2) := by
  intro n
  induction n with
  | zero =>
    intro e a b hn
    have ha : a = [] := by
      cases a with
      | nil => rfl
      | cons x xs => simp at hn
    subst ha
    have h0 : input_loop e [] = (e, [], []) := by rw [input_loop]; simp
    rw [h0]
    simp
  | succ n ih =>
    intro e a b hn
    by_cases ha : a = []
    · subst ha
      have h0 : input_loop e [] = (e, [], []) := by rw [input_loop]; simp
      rw [h0]
      simp
    · by_cases hl : get_expected_packet_length a = 0
      · have h0 : input_loop e a = (e, [], a) := by
          rw [input_loop]
          rw [dif_neg ha]
          simp only [dif_pos hl]
        rw [h0]
        simp
      · by_cases hlen : a.length < get_expected_packet_length a
        · have h0 : input_loop e a = (e, [], a) := by
            rw [input_loop]
            rw [dif_neg ha, dif_neg hl, if_pos hlen]
          rw [h0]
          simp
        · have hab : a ++ b ≠ [] := by
            intro h
            exact ha (List.append_eq_nil.mp h).1
          have hgab : get_expected_packet_length (a ++ b) =
              get_expected_packet_length a :=
            get_expected_packet_length_append a b hl
          have htake : (a ++ b).take (get_expected_packet_length a) =
              a.take (get_expected_packet_length a) :=
            List.take_append_of_le_length (by omega)
          have hdropl : (a ++ b).drop (get_expected_packet_length a) =
              a.drop (get_expected_packet_length a) ++ b :=
            List.drop_append_of_le_length (by omega)
          have hlab : ¬ (a ++ b).length < get_expected_packet_length a := by
            rw [List.length_append]; omega
          have hdn : (a.drop (get_expected_packet_length a)).length ≤ n := by
            rw [List.length_drop]
            have : 0 < a.length := List.length_pos.mpr ha
            omega
          by_cases hmax : get_expected_packet_length a ≤ MQTT_MAX_PACKET_SIZE
          · have ha1 : input_loop e a =
                ((input_loop (process_packet e
                    (a.take (get_expected_packet_length a))).1
                    (a.drop (get_expected_packet_length a))).1,
                 (process_packet e (a.take (get_expected_packet_length a))).2 ++
                   (input_loop (process_packet e
                     (a.take (get_expected_packet_length a))).1
                     (a.drop (get_expected_packet_length a))).2.1,
                 (input_loop (process_packet e
                    (a.take (get_expected_packet_length a))).1
                    (a.drop (get_expected_packet_length a))).2.2) := by
              conv_lhs => rw [input_loop]
              simp only [dif_neg ha, dif_neg hl, if_neg hlen, if_pos hmax]
            have hab1 : input_loop e (a ++ b) =
                ((input_loop (process_packet e
                    (a.take (get_expected_packet_length a))).1
                    (a.drop (get_expected_packet_length a) ++ b)).1,
                 (process_packet e (a.take (get_expected_packet_length a))).2 ++
                   (input_loop (process_packet e
                     (a.take (get_expected_packet_length a))).1
                     (a.drop (get_expected_packet_length a) ++ b)).2.1,
                 (input_loop (process_packet e
                    (a.take (get_expected_packet_length a))).1
                    (a.drop (get_expected_packet_length a) ++ b)).2.2) := by
              conv_lhs => rw [input_loop]
              simp only [dif_neg hab, hgab, dif_neg hl, if_neg hlab, if_pos hmax,
                htake, hdropl]
            rw [hab1, ha1]
            rw [ih (process_packet e (a.take (get_expected_packet_length a))).1
              (a.drop (get_expected_packet_length a)) b hdn]
            simp [List.append_assoc]
          · have ha1 : input_loop e a =
                ((input_loop e (a.drop (get_expected_packet_length a))).1,
                 (input_loop e (a.drop (get_expected_packet_length a))).2.1,
                 (input_loop e (a.drop (get_expected_packet_length a))).2.2) := by
              conv_lhs => rw [input_loop]
              simp only [dif_neg ha, dif_neg hl, if_neg hlen, if_neg hmax,
                List.nil_append]
            have hab1 : input_loop e (a ++ b) =
                ((input_loop e (a.drop (get_expected_packet_length a) ++ b)).1,
                 (input_loop e (a.drop (get_expected_packet_length a) ++ b)).2.1,
                 (input_loop e (a.drop (get_expected_packet_length a) ++ b)).2.2) := by
              conv_lhs => rw [input_loop]
              simp only [dif_neg hab, hgab, dif_neg hl, if_neg hlab, if_neg hmax,
                htake, hdropl, List.nil_append]
            rw [hab1, ha1]
            rw [ih e (a.drop (get_expected_packet_length a)) b hdn]

/-- A byte list is passive when the loop cannot peel a packet off it:
either the expected length is undeterminable or the data is shorter. -/
def passive (r : List Nat) : Prop :=
  get_expected_packet_length r = 0 ∨ r.length < get_expected_packet_length r

/-- The loop does nothing on a passive buffer. -/
theorem input_loop_passive (e : Engine) (r : List Nat) (h : passive r) :
    input_loop e r = (e, [], r) := by
  by_cases hr : r = []
  · subst hr
    rw [input_loop]
    simp
  · rw [input_loop]
    rw [dif_neg hr]
    rcases h with h | h
    · simp only [dif_pos h]
    · rw [dif_neg (by omega : ¬ get_expected_packet_length r = 0)]
      rw [if_pos h]

/-- What the loop leaves behind is always passive (it stopped there). -/
theorem input_loop_rem_passive : ∀ (n : Nat) (e : Engine) (w : List Nat),
    w.length ≤ n → passive (input_loop e w).2.2 := by
  intro n
  induction n with
  | zero =>
    intro e w hn
    have hw : w = [] := by
      cases w with
      | nil => rfl
      | cons x xs => simp at hn
    subst hw
    rw [input_loop]
    simp [passive, get_expected_packet_length]
  | succ n ih =>
    intro e w hn
    by_cases hw : w = []
    · subst hw
      rw [input_loop]
      simp [passive, get_expected_packet_length]
    · rw [input_loop]
      rw [dif_neg hw]
      by_cases hl : get_expected_packet_length w = 0
      · simp only [dif_pos hl]
        exact Or.inl hl
      · simp only [dif_neg hl]
        by_cases hlen : w.length < get_expected_packet_length w
        · simp only [if_pos hlen]
          exact Or.inr hlen
        · simp only [if_neg hlen]
          have hdn : (w.drop (get_expected_packet_length w)).length ≤ n := by
            rw [List.length_drop]
            have : 0 < w.length := List.length_pos.mpr hw
            omega
          exact ih _ (w.drop (get_expected_packet_length w)) hdn

/-- Feeding the chunks one `mqtt_input` call at a time produces the same
events as one pass of the loop over the buffered bytes plus all the
chunks' bytes, provided the engine's held buffer is passive (which is an
invariant of `mqtt_input`). -/
theorem mqtt_input_many_events : ∀ (chunks : List (List Nat)) (e : Engine),
    (∀ c ∈ chunks, c ≠ []) → passive e.reassembly →
    (mqtt_input_many e chunks).2 =
      (input_loop e (e.reassembly ++ chunks.flatten)).2.1 := by
  intro chunks
  induction chunks with
  | nil =>
    intro e _ hp
    rw [List.flatten_nil, List.append_nil]
    rw [input_loop_passive e e.reassembly hp]
    rfl
  | cons c cs ih =>
    intro e hc hp
    have hcne : c ≠ [] := hc c (by simp)
    have hcs : ∀ x ∈ cs, x ≠ [] := fun x hx => hc x (by simp [hx])
    have hc0 : ¬ c.length = 0 := by
      simpa [List.length_eq_zero] using hcne
    have hmi : mqtt_input e c =
        ({ (input_loop e (e.reassembly ++ c)).1 with
            reassembly := (input_loop e (e.reassembly ++ c)).2.2 },
         (input_loop e (e.reassembly ++ c)).2.1, (c.length : Int)) := by
      rw [mqtt_input]
      rw [if_neg hc0]
    rw [List.flatten_cons]
    rw [mqtt_input_many, hmi]
    dsimp only
    rw [ih _ hcs (input_loop_rem_passive (e.reassembly ++ c).length e
      (e.reassembly ++ c) le_rfl)]
    dsimp only
    rw [input_loop_set
      ((input_loop e (e.reassembly ++ c)).2.2 ++ cs.flatten).length
      (input_loop e (e.reassembly ++ c)).1
      ((input_loop e (e.reassembly ++ c)).2.2 ++ cs.flatten)
      (input_loop e (e.reassembly ++ c)).2.2 le_rfl]
    rw [← List.append_assoc]
    rw [input_loop_append (e.reassembly ++ c).length e (e.reassembly ++ c)
      cs.flatten le_rfl]

/-- C1: for every well-formed sequence of MQTT packets and every
partition of its byte concatenation into non-empty chunks, feeding the
chunks to `input` one call at a time, starting from an engine with an
empty reassembly buffer, produces exactly the same sequence of handler
invocations, with the same arguments, as feeding the whole concatenation
in a single `input` call. -/
theorem fragmentation_transparency (e : Engine) (pkts chunks : List (List Nat))
    (he : e.reassembly = [])
    (hp : ∀ q ∈ pkts, complete_packet q)
    (hc : ∀ c ∈ chunks, c ≠ [])
    (hj : chunks.flatten = pkts.flatten) :
    (mqtt_input_many e chunks).2 = (mqtt_input e chunks.flatten).2.1 := by
  have hpass : passive e.reassembly := by
    rw [he]
    exact Or.inl (by decide)
  have hmany := mqtt_input_many_events chunks e hc hpass
  by_cases hj0 : chunks.flatten.length = 0
  · have hjoin : chunks.flatten = [] := List.length_eq_zero.mp hj0
    rw [hmany]
    rw [mqtt_input, if_pos hj0]
    rw [he, hjoin]
    rw [List.append_nil]
    rw [input_loop_passive e [] (Or.inl (by decide))]
  · rw [hmany]
    rw [mqtt_input, if_neg hj0]

/-- Witness for C1: the PINGRESP packet `D0 00` split into the chunks
`D0` and `00`. -/
theorem fragmentation_transparency_witness :
    (∀ q ∈ ([[0xD0, 0x00]] : List (List Nat)), complete_packet q) ∧
    (∀ c ∈ ([[0xD0], [0x00]] : List (List Nat)), c ≠ []) ∧
    ([[0xD0], [0x00]] : List (List Nat)).flatten =
      ([[0xD0, 0x00]] : List (List Nat)).flatten ∧
    (mqtt_input_many sample_engine [[0xD0], [0x00]]).2 =
      (mqtt_input sample_engine
        ([[0xD0], [0x00]] : List (List Nat)).flatten).2.1 :=
  ⟨by decide, by decide, by decide,
   fragmentation_transparency sample_engine [[0xD0, 0x00]] [[0xD0], [0x00]]
     rfl (by decide) (by decide) (by decide)⟩

end Mqtt
